import Mathlib

/-!
Verification development for the OpenEMS client/domain layer of the
ha_openems repository (custom_components/openems/openems.py).

The Python code is shallowly embedded: Python values flowing through the
channel-update paths become the inductive type Val, Python dicts become
association lists, Python floats are idealised as exact rationals, and
methods that mutate an object become pure functions from a state to a new
state together with the observable effects (callback invocations, warnings,
outbound payloads).  A Python exception escaping a method is modelled by an
Option-valued result (Option.none = the call raises).
-/

/-- A Python runtime value as it appears in the channel-update paths of
openems.py: None, int, float (idealised as an exact rational), str, bool,
and datetime.time restricted to hour/minute as produced by
OpenEMSTimeProperty. -/
inductive Val where
  | none
  | int (n : ℤ)
  | rat (q : ℚ)
  | str (s : String)
  | bool (b : Bool)
  | time (hour : ℕ) (minute : ℕ)
deriving DecidableEq, Repr

namespace Val

/-- Numeric interpretation used by Python equality: bool compares equal to
0/1 and int compares equal to the same-valued float. -/
def asNum? : Val → Option ℚ
  | int n => Option.some (n : ℚ)
  | rat q => Option.some q
  | bool b => Option.some (if b then 1 else 0)
  | _ => Option.none

/-- True exactly for str values (isinstance(v, str)). -/
def isString : Val → Bool
  | str _ => true
  | _ => false

/-- The contained string of a str value, or the empty string. -/
def strVal : Val → String
  | str s => s
  | _ => ""

end Val

/-- Python equality on the embedded values: numeric values compare by
numeric value (True == 1, 1 == 1.0), everything else structurally. -/
def pyEq (a b : Val) : Bool :=
  match a.asNum?, b.asNum? with
  | Option.some x, Option.some y => decide (x = y)
  | _, _ => decide (a = b)

/-- Lookup in a Python dict modelled as an association list (first match). -/
def assocLookup {α : Type} : List (String × α) → String → Option α
  | [], _ => Option.none
  | p :: rest, k => if p.1 = k then Option.some p.2 else assocLookup rest k

/-- Assignment d[k] = v in a Python dict modelled as an association list. -/
def assocSet {α : Type} : List (String × α) → String → α → List (String × α)
  | [], k, v => [(k, v)]
  | p :: rest, k, v =>
      if p.1 = k then (p.1, v) :: rest else p :: assocSet rest k v

/-- Python str.lower restricted to ASCII case mapping, written on the
character list so that it evaluates by kernel reduction. -/
def pyToLower (s : String) : String :=
  String.mk (s.data.map Char.toLower)

/-- Replacement loop of Python str.replace for a nonempty pattern: replace
non-overlapping occurrences left to right.  The fuel argument (the input
length) only serves structural termination; one character or one whole
match is consumed per step, so the fuel never runs out on the inputs the
embedding uses. -/
def replaceAux (pat rep : List Char) : ℕ → List Char → List Char
  | _, [] => []
  | 0, l => l
  | fuel + 1, c :: rest =>
      if pat.isPrefixOf (c :: rest) then
        rep ++ replaceAux pat rep fuel ((c :: rest).drop pat.length)
      else c :: replaceAux pat rep fuel rest

/-- Python s.replace(pat, rep) for a nonempty pattern (the only patterns
openems.py passes: a slash, a space, and the slash-escape token). -/
def pyReplace (s pat rep : String) : String :=
  String.mk (replaceAux pat.data rep.data s.data.length s.data)

/-- Normalisation applied by OpenEMSEnumProperty to option strings and
incoming raw values: value.lower().replace(" ", "_"). -/
def pyNormalize (s : String) : String :=
  pyReplace (pyToLower s) (" ") ("_")

/-- Observable state of an OpenEMSChannel object: the cached current value
and whether a Home Assistant callback is registered. -/
structure ChannelState where
  current_value : Val
  hasCallback : Bool
deriving DecidableEq, Repr

/-- OpenEMSChannel.handle_current_value: adopt the value if it differs from
the cached one and notify Home Assistant.  The returned Bool is true when
the registered callback was invoked (notify_ha fires it only if one is
registered). -/
def handle_current_value (st : ChannelState) (v : Val) : ChannelState × Bool :=
  if pyEq v st.current_value then (st, false)
  else ({ st with current_value := v }, st.hasCallback)

/-- OpenEMSChannel.unique_id: hostname, edge id, component name and channel
name joined by slashes. -/
def unique_id (hostname edgeId componentName channelName : String) : String :=
  hostname ++ ("/") ++ edgeId ++ ("/") ++ componentName ++ ("/") ++ channelName

/-- Observable state of an OpenEMSEnumProperty: cached current value, the
options dict (normalised key to original option string), callback flag. -/
structure EnumState where
  current_value : Val
  options : List (String × String)
  hasCallback : Bool
deriving DecidableEq, Repr

/-- The options dict built by OpenEMSEnumProperty.__init__ from the option
list: each option is keyed by its normalised form. -/
def mkEnumOptions (options : List String) : List (String × String) :=
  options.map (fun v => (pyNormalize v, v))

/-- handle_current_value on an enum property (same logic as the base
channel, carried on EnumState). -/
def enumHandleCurrentValue (st : EnumState) (v : Val) : EnumState × Bool :=
  if pyEq v st.current_value then (st, false)
  else ({ st with current_value := v }, st.hasCallback)

/-- OpenEMSEnumProperty.handle_data_update.  Result: new state, whether the
callback fired, and whether the unknown-option warning was logged. -/
def enumHandleDataUpdate (st : EnumState) (value : Val) : EnumState × Bool × Bool :=
  match value with
  | Val.none =>
      let r := enumHandleCurrentValue st Val.none
      (r.1, r.2, false)
  | Val.str s =>
      let v := pyNormalize s
      if (assocLookup st.options v).isSome then
        let r := enumHandleCurrentValue st (Val.str v)
        (r.1, r.2, false)
      else
        let r := enumHandleCurrentValue st Val.none
        (r.1, r.2, true)
  | other =>
      let r := enumHandleCurrentValue st other
      (r.1, r.2, false)

/-- OpenEMSEnumProperty.current_option: the cached value when it is a
string, otherwise None. -/
def current_option (st : EnumState) : Option String :=
  match st.current_value with
  | Val.str s => Option.some s
  | _ => Option.none

/-- Decimal value of a list of digit characters. -/
def digitsVal (l : List Char) : ℕ :=
  l.foldl (fun acc c => acc * 10 + (c.toNat - 48)) 0

/-- Whitespace stripping done by Python int() before parsing, written on
the character list so that it evaluates by kernel reduction. -/
def pyStrip (s : String) : String :=
  String.mk
    (((s.data.dropWhile Char.isWhitespace).reverse.dropWhile
        Char.isWhitespace).reverse)

/-- Python int(s) on a decimal string: strip whitespace, optional sign,
then decimal digits; anything else raises ValueError (Option.none here).
Underscore digit grouping and non-ASCII digits are not modelled. -/
def pyInt? (s : String) : Option ℤ :=
  let t := pyStrip s
  let signDigits : ℤ × List Char :=
    match t.data with
    | '-' :: rest => (-1, rest)
    | '+' :: rest => (1, rest)
    | l => (1, l)
  if signDigits.2 ≠ [] ∧ signDigits.2.all Char.isDigit then
    Option.some (signDigits.1 * (digitsVal signDigits.2 : ℤ))
  else Option.none

/-- Splitting on a single separator character, as value.split(":") does in
OpenEMSTimeProperty.handle_data_update. -/
def splitOnCharAux (sep : Char) : List Char → List (List Char)
  | [] => [[]]
  | c :: rest =>
      if c = sep then [] :: splitOnCharAux sep rest
      else
        match splitOnCharAux sep rest with
        | [] => [[c]]
        | g :: gs => (c :: g) :: gs

/-- Python s.split(":") as a list of strings. -/
def pySplitColon (s : String) : List String :=
  (splitOnCharAux ':' s.data).map String.mk

/-- The decode in OpenEMSTimeProperty.handle_data_update for a string:
split on a colon into exactly two parts, parse both as ints, build a
datetime.time (which itself raises ValueError outside 0..23 / 0..59).
Any ValueError yields Option.none. -/
def pyParseTimeStr (s : String) : Option Val :=
  match pySplitColon s with
  | [hs, ms] =>
      match pyInt? hs, pyInt? ms with
      | Option.some h, Option.some m =>
          if 0 ≤ h ∧ h ≤ 23 ∧ 0 ≤ m ∧ m ≤ 59 then
            Option.some (Val.time h.toNat m.toNat)
          else Option.none
      | _, _ => Option.none
  | _ => Option.none

/-- OpenEMSTimeProperty.handle_data_update: non-strings and unparsable
strings decode to None, well-formed strings to a time value; then the
common handle_current_value path runs. -/
def timeHandleDataUpdate (st : ChannelState) (value : Val) : ChannelState × Bool :=
  let new_val : Val :=
    match value with
    | Val.str s => (pyParseTimeStr s).getD Val.none
    | _ => Val.none
  handle_current_value st new_val

/-- Two-digit zero-padded decimal rendering of a field of strftime. -/
def pad2 (n : ℕ) : String :=
  if n < 10 then ("0") ++ toString n else toString n

/-- Python value.strftime("%H:%M") for a datetime.time. -/
def formatTimeHM (hour minute : ℕ) : String :=
  pad2 hour ++ (":") ++ pad2 minute

/-- The channel-name to RPC-property-name conversion used in
OpenEMSProperty.update_value: name[9].lower() + name[10:], stripping the
_Property prefix and lowercasing the first remaining character.  Python
raises IndexError on names of at most 9 characters; real property names
always extend the 9-character prefix, and the result is then nonempty. -/
def propertyApiName (name : String) : String :=
  match name.data.drop 9 with
  | [] => ""
  | c :: rest => String.mk (Char.toLower c :: rest)

/-- The guard of OpenEMSProperty.update_value on an update group:
condition_value is None or condition_value == new_value. -/
def update_guard (conditionValue : Option Val) (new_value : Val) : Bool :=
  match conditionValue with
  | Option.none => true
  | Option.some c => pyEq c new_value

/-- The sibling-collection loop of OpenEMSProperty.update_value: for each
group member name, find the property of that name among the component's
properties and take its current value.  A missing member makes the Python
generator in next(...) raise StopIteration (Option.none here). -/
def lookupSiblings (siblings : List (String × Val)) :
    List String → Option (List (String × Val))
  | [] => Option.some []
  | m :: rest =>
      match assocLookup siblings m with
      | Option.none => Option.none
      | Option.some v =>
          match lookupSiblings siblings rest with
          | Option.none => Option.none
          | Option.some l => Option.some ((propertyApiName m, v) :: l)

/-- OpenEMSProperty.update_value: the properties payload handed to
OpenEMSComponent.update_config.  The written channel always comes first;
when the group guard is satisfied the current values of all group members
follow, otherwise the payload is the written channel alone.  The siblings
argument lists the component's properties as name/current-value pairs. -/
def update_value_payload (selfName : String) (new_value : Val)
    (groupMembers : List String) (conditionValue : Option Val)
    (siblings : List (String × Val)) : Option (List (String × Val)) :=
  if update_guard conditionValue new_value then
    match lookupSiblings siblings groupMembers with
    | Option.none => Option.none
    | Option.some rest =>
        Option.some ((propertyApiName selfName, new_value) :: rest)
  else Option.some [(propertyApiName selfName, new_value)]

/-- OpenEMSTimeProperty.async_set_value: format the time with strftime and
delegate to update_value with the formatted string. -/
def timeSetValuePayload (selfName : String) (hour minute : ℕ)
    (groupMembers : List String) (conditionValue : Option Val)
    (siblings : List (String × Val)) : Option (List (String × Val)) :=
  update_value_payload selfName (Val.str (formatTimeHM hour minute))
    groupMembers conditionValue siblings

/-- The channel registry of an OpenEMSEdge (_registered_channels): a dict
from raw channel name to the set of channel objects interested in it.
Channel objects are identified by natural-number handles, and the Python
set becomes a duplicate-free list. -/
abbrev Registry := List (String × List ℕ)

/-- Python set.add on a handler set. -/
def setInsert (h : ℕ) (l : List ℕ) : List ℕ :=
  if h ∈ l then l else h :: l

/-- One iteration of OpenEMSEdge.register_channel: create the key with a
singleton set if absent, otherwise add the handler to the existing set. -/
def registerOne (h : ℕ) (name : String) : Registry → Registry
  | [] => [(name, [h])]
  | p :: rest =>
      if p.1 = name then (p.1, setInsert h p.2) :: rest
      else p :: registerOne h name rest

/-- OpenEMSEdge.register_channel over a collection of channel names. -/
def register_channel (h : ℕ) : List String → Registry → Registry
  | [], reg => reg
  | nm :: rest, reg => register_channel h rest (registerOne h nm reg)

/-- OpenEMSEdge.unregister_channel: remove the handler from every set it
occurs in and delete any key whose set becomes empty. -/
def unregister_channel (h : ℕ) : Registry → Registry
  | [] => []
  | p :: rest =>
      if h ∈ p.2 then
        if (p.2.filter (fun x => x != h)).isEmpty then unregister_channel h rest
        else (p.1, p.2.filter (fun x => x != h)) :: unregister_channel h rest
      else p :: unregister_channel h rest

/-- The channel-name set built by OpenEMSNumberProperty.register_callback:
every reference-channel key with the slash-escape token replaced back by a
slash, plus the property's own component/channel name.  The Python set
union only removes duplicates, which registration ignores anyway.  The
escape token (SLASH_ESC) is kept as a parameter because const.py in this
snapshot does not carry its definition. -/
def numberRegisterNames (slashEsc compName chanName : String)
    (refs : List (String × Val)) : List String :=
  refs.map (fun p => pyReplace p.1 slashEsc ("/")) ++
    [compName ++ ("/") ++ chanName]

/-- OpenEMSNumberProperty.register_callback acting on the edge registry. -/
def numberRegisterCallback (slashEsc compName chanName : String)
    (refs : List (String × Val)) (handler : ℕ) (reg : Registry) : Registry :=
  register_channel handler (numberRegisterNames slashEsc compName chanName refs) reg

/-- A registration-interface call on the edge registry: either a
register_channel with a set of names or an unregister_channel. -/
inductive RegOp where
  | register (names : List String) (h : ℕ)
  | unregister (h : ℕ)

/-- Apply one registry operation. -/
def applyOp (reg : Registry) : RegOp → Registry
  | RegOp.register names h => register_channel h names reg
  | RegOp.unregister h => unregister_channel h reg

/-- Apply a sequence of registry operations in order. -/
def applyOps : List RegOp → Registry → Registry
  | [], reg => reg
  | op :: rest, reg => applyOps rest (applyOp reg op)

/-- The derived numeric configuration of an OpenEMSNumberProperty:
multiplier, lower and upper limit, and step. -/
structure NumberConfig where
  multiplier : ℚ
  lower_limit : ℚ
  upper_limit : ℚ
  step : ℚ
deriving DecidableEq, Repr

/-- Search loop for ceilLog10: the first exponent n with q at most 10 to
the n, scanning upward while fuel remains. -/
def ceilLog10Aux (q : ℚ) : ℕ → ℕ → ℕ
  | 0, n => n
  | fuel + 1, n => if q ≤ 10 ^ n then n else ceilLog10Aux q fuel (n + 1)

/-- Exact counterpart of math.ceil(math.log10 q) for q at least 1 (the only
inputs _update_config produces, thanks to its max with 1): the least
natural n with q at most 10 to the n.  The fuel always suffices because
10 to the ceiling of q already reaches q. -/
def ceilLog10 (q : ℚ) : ℕ :=
  ceilLog10Aux q (⌈q⌉.toNat + 1) 0

/-- Core numeric derivation of OpenEMSNumberProperty._update_config, taking
the already-rendered template results (Option.none when rendering or the
float conversion raised).  A failed multiplier render falls back to 1; a
failed bound render resets the limits to 0 and 100000 keeping the old
step; otherwise the upper bound is clamped to at least lower plus 10, both
bounds are scaled by the multiplier, the scaled range is split into at
least 200 steps with a minimum step of 1, the step is rounded up to a
power of ten, and both limits are rounded up to multiples of the step.
The Bool is the return value: whether anything changed. -/
def updateConfigCore (old : NumberConfig) (mres lres ures : Option ℚ) :
    NumberConfig × Bool :=
  let multiplier := mres.getD 1
  let cfg : NumberConfig :=
    match lres, ures with
    | Option.some lower0, Option.some upper0 =>
        let upper1 := if upper0 < lower0 + 10 then lower0 + 10 else upper0
        let lower_scaled := lower0 * multiplier
        let upper_scaled := upper1 * multiplier
        let min_step_range := max 1 ((upper_scaled - lower_scaled) / 200)
        let step := (10 : ℚ) ^ ceilLog10 min_step_range
        { multiplier := multiplier
          lower_limit := (⌈lower_scaled / step⌉ : ℚ) * step
          upper_limit := (⌈upper_scaled / step⌉ : ℚ) * step
          step := step }
    | _, _ =>
        { multiplier := multiplier
          lower_limit := 0
          upper_limit := 100000
          step := old.step }
  (cfg, decide (cfg ≠ old))

/-- OpenEMSNumberProperty._update_config with the three template
definitions abstracted as functions from the reference-channel values to
the rendered float (Option.none for a render or conversion error). -/
def update_config (mdef ldef udef : List (String × Val) → Option ℚ)
    (refs : List (String × Val)) (old : NumberConfig) : NumberConfig × Bool :=
  updateConfigCore old (mdef refs) (ldef refs) (udef refs)

/-- Observable state of an OpenEMSNumberProperty. -/
structure NumberState where
  current_value : Val
  hasCallback : Bool
  multiplier : ℚ
  lower_limit : ℚ
  upper_limit : ℚ
  step : ℚ
  reference_channels : List (String × Val)
deriving DecidableEq, Repr

/-- The derived-configuration part of a number-property state. -/
def numberConfigOf (st : NumberState) : NumberConfig :=
  { multiplier := st.multiplier
    lower_limit := st.lower_limit
    upper_limit := st.upper_limit
    step := st.step }

/-- Store a freshly derived configuration in a number-property state. -/
def numberApplyConfig (st : NumberState) (c : NumberConfig) : NumberState :=
  { st with
    multiplier := c.multiplier
    lower_limit := c.lower_limit
    upper_limit := c.upper_limit
    step := c.step }

/-- handle_current_value carried on NumberState. -/
def numberHandleCurrentValue (st : NumberState) (v : Val) : NumberState × Bool :=
  if pyEq v st.current_value then (st, false)
  else ({ st with current_value := v }, st.hasCallback)

/-- OpenEMSNumberProperty.handle_data_update: an update for a reference
channel stores the new reference value and reruns _update_config, firing
the callback only when the derived configuration changed; any other update
scales a numeric value by the multiplier (non-numbers decode to None) and
runs the common handle_current_value path.  The Bool is true when the
registered callback was invoked. -/
def numberHandleDataUpdate (mdef ldef udef : List (String × Val) → Option ℚ)
    (slashEsc : String) (st : NumberState) (channel_name : String)
    (value : Val) : NumberState × Bool :=
  let ref := pyReplace channel_name ("/") slashEsc
  match assocLookup st.reference_channels ref with
  | Option.some oldv =>
      if pyEq oldv value then (st, false)
      else
        let refs := assocSet st.reference_channels ref value
        let res := update_config mdef ldef udef refs (numberConfigOf st)
        if res.2 then
          (numberApplyConfig { st with reference_channels := refs } res.1,
            st.hasCallback)
        else ({ st with reference_channels := refs }, false)
  | Option.none =>
      match value.asNum? with
      | Option.some q => numberHandleCurrentValue st (Val.rat (st.multiplier * q))
      | Option.none => numberHandleCurrentValue st Val.none

/-- Observable state of an OpenEMSEdge: its id, the channel registry, the
cached last data snapshot, the subscription updater's active-subscription
list, and the stored component configuration (the latter abstracted to an
association list). -/
structure EdgeState where
  id : String
  registered_channels : Registry
  current_channel_data : List (String × Val)
  active_subscriptions : List String
  component_config : List (String × Val)
deriving DecidableEq, Repr

/-- The fanout loop of OpenEMSEdge.set_unavailable: for every channel name
in the data cache, deliver a None update to every member of
_registered_channels[name].  Indexing a name that is not a registry key
raises KeyError (Option.none here).  Each delivery is recorded as a
handler/channel-name/value triple. -/
def deliverUnavailable (reg : Registry) :
    List (String × Val) → Option (List (ℕ × String × Val))
  | [] => Option.some []
  | p :: rest =>
      match assocLookup reg p.1 with
      | Option.none => Option.none
      | Option.some hs =>
          match deliverUnavailable reg rest with
          | Option.none => Option.none
          | Option.some ds =>
              Option.some (hs.map (fun h => (h, p.1, Val.none)) ++ ds)

/-- OpenEMSEdge.set_unavailable: deliver a None update for every cached
channel name and clear the subscription updater's active-subscription
list (OpenEmsEdgeChannelSubscriptionUpdater.clear). -/
def set_unavailable (st : EdgeState) :
    Option (EdgeState × List (ℕ × String × Val)) :=
  match deliverUnavailable st.registered_channels st.current_channel_data with
  | Option.none => Option.none
  | Option.some ds =>
      Option.some ({ st with active_subscriptions := [] }, ds)

/-- The deliveries of OpenEMSEdge.currentData: names without registered
handlers are logged and skipped, every other name fans its value out to
all registered handlers. -/
def currentDataDeliveries (reg : Registry) :
    List (String × Val) → List (ℕ × String × Val)
  | [] => []
  | p :: rest =>
      ((assocLookup reg p.1).getD []).map (fun h => (h, p.1, p.2)) ++
        currentDataDeliveries reg rest

/-- OpenEMSEdge.currentData: store the snapshot as the current data and fan
it out to the registered handlers. -/
def edgeCurrentData (st : EdgeState) (params : List (String × Val)) :
    EdgeState × List (ℕ × String × Val) :=
  ({ st with current_channel_data := params },
    currentDataDeliveries st.registered_channels params)

/-- An inbound edgeRpc notification payload, dispatched by method name.
The methods the edge object meaningfully handles are currentData and
edgeConfig; every other method name falls into the logged unhandled
branch. -/
inductive RpcPayload where
  | currentData (params : List (String × Val))
  | edgeConfig (components : List (String × Val))
  | unknownMethod (methodName : String)
deriving DecidableEq, Repr

/-- OpenEMSBackend.edgeRpc acting on its single owned edge: a notification
whose edgeId differs from the owned edge's id is logged and dropped, and
otherwise the payload method runs on the edge.  The result is the new edge
state and the handler deliveries it caused. -/
def backendEdgeRpc (st : EdgeState) (edgeId : String) (payload : RpcPayload) :
    EdgeState × List (ℕ × String × Val) :=
  if edgeId ≠ st.id then (st, [])
  else
    match payload with
    | RpcPayload.currentData params => edgeCurrentData st params
    | RpcPayload.edgeConfig comps =>
        ({ st with component_config := comps }, [])
    | RpcPayload.unknownMethod _ => (st, [])

/-- Python equality is reflexive on the embedded values. -/
theorem pyEq_refl (v : Val) : pyEq v v = true := by
  unfold pyEq
  cases h : v.asNum? <;> simp [h]

/-- A value Python-equal to a string is that string. -/
theorem pyEq_str_right (v : Val) (t : String) (h : pyEq v (Val.str t) = true) :
    v = Val.str t := by
  cases v <;> simp [pyEq, Val.asNum?] at h ⊢
  exact h

/-- A value Python-equal to None, compared from the left, is None. -/
theorem pyEq_none_left (v : Val) (h : pyEq Val.none v = true) : v = Val.none := by
  cases v <;> simp [pyEq, Val.asNum?] at h ⊢

/-- The handler just inserted by setInsert is always a member. -/
theorem mem_setInsert_self (hh : ℕ) (l : List ℕ) : hh ∈ setInsert hh l := by
  unfold setInsert
  split
  next hin => exact hin
  next => exact List.mem_cons_self _ _

/-- Feeding None into handle_current_value always leaves None cached. -/
theorem handle_current_value_none (st : ChannelState) :
    (handle_current_value st Val.none).1.current_value = Val.none := by
  unfold handle_current_value
  split
  next h => exact (pyEq_none_left st.current_value h).symm ▸ rfl
  next => rfl

/-- Feeding a non-string into the enum handle_current_value path leaves a
non-string cached, so current_option is None. -/
theorem enum_hcv_option_none (st : EnumState) (v : Val) (hv : v.isString = false) :
    current_option (enumHandleCurrentValue st v).1 = Option.none := by
  unfold enumHandleCurrentValue
  split
  next h =>
    show current_option st = Option.none
    cases hc : st.current_value with
    | str s =>
        rw [hc] at h
        rw [pyEq_str_right v s h] at hv
        simp [Val.isString] at hv
    | none => simp [current_option, hc]
    | int n => simp [current_option, hc]
    | rat q => simp [current_option, hc]
    | bool b => simp [current_option, hc]
    | time a b => simp [current_option, hc]
  next =>
    show current_option { st with current_value := v } = Option.none
    cases v <;> simp [current_option]
    simp [Val.isString] at hv

/-- Adding a handler with registerOne makes it a member under that name. -/
theorem lookupD_registerOne_self (hh : ℕ) (name : String) (reg : Registry) :
    hh ∈ (assocLookup (registerOne hh name reg) name).getD [] := by
  induction reg with
  | nil => simp [registerOne, assocLookup, setInsert]
  | cons p rest ih =>
      unfold registerOne
      split
      next heq =>
        simp only [assocLookup, heq, if_pos, Option.getD_some]
        unfold setInsert
        split
        next => assumption
        next => exact List.mem_cons_self _ _
      next hne =>
        simpa [assocLookup, hne] using ih

/-- registerOne never removes the added handler from any other name. -/
theorem lookupD_registerOne_preserve (hh : ℕ) (name k : String) (reg : Registry)
    (hmem : hh ∈ (assocLookup reg k).getD []) :
    hh ∈ (assocLookup (registerOne hh name reg) k).getD [] := by
  induction reg with
  | nil => simp [assocLookup] at hmem
  | cons p rest ih =>
      unfold registerOne
      split
      next heq =>
        by_cases hk : p.1 = k
        · simp [assocLookup, hk]
          exact mem_setInsert_self hh p.2
        · simp [assocLookup, hk] at hmem ⊢
          exact hmem
      next hne =>
        by_cases hk : p.1 = k
        · simp [assocLookup, hk] at hmem ⊢
          exact hmem
        · simp [assocLookup, hk] at hmem ⊢
          exact ih hmem

/-- register_channel never removes the added handler from any name. -/
theorem lookupD_register_channel_preserve (hh : ℕ) (names : List String)
    (k : String) : ∀ reg : Registry, hh ∈ (assocLookup reg k).getD [] →
    hh ∈ (assocLookup (register_channel hh names reg) k).getD [] := by
  induction names with
  | nil => intro reg hmem; exact hmem
  | cons nm rest ih =>
      intro reg hmem
      exact ih (registerOne hh nm reg)
        (lookupD_registerOne_preserve hh nm k reg hmem)

/-- After register_channel, the handler is a member under every registered
name. -/
theorem lookupD_register_channel_mem (hh : ℕ) (names : List String)
    (n : String) (hn : n ∈ names) : ∀ reg : Registry,
    hh ∈ (assocLookup (register_channel hh names reg) n).getD [] := by
  induction names with
  | nil => cases hn
  | cons nm rest ih =>
      intro reg
      rcases List.mem_cons.mp hn with heq | hmem
      · rw [heq]
        exact lookupD_register_channel_preserve hh rest nm
          (registerOne hh nm reg) (lookupD_registerOne_self hh nm reg)
      · exact ih hmem (registerOne hh nm reg)

/-- After unregister_channel, the handler is a member under no name. -/
theorem not_mem_unregister (hh : ℕ) (reg : Registry) (nm : String) :
    hh ∉ (assocLookup (unregister_channel hh reg) nm).getD [] := by
  induction reg with
  | nil => simp [unregister_channel, assocLookup]
  | cons p rest ih =>
      unfold unregister_channel
      split
      next hin =>
        split
        next => exact ih
        next =>
          by_cases hk : p.1 = nm
          · simp [assocLookup, hk, List.mem_filter]
          · simpa [assocLookup, hk] using ih
      next hnotin =>
        by_cases hk : p.1 = nm
        · simpa [assocLookup, hk] using hnotin
        · simpa [assocLookup, hk] using ih

/-- The handler set produced by setInsert is never empty. -/
theorem setInsert_ne_nil (hh : ℕ) (l : List ℕ) : setInsert hh l ≠ [] := by
  unfold setInsert
  split
  next hin =>
    intro hl
    rw [hl] at hin
    cases hin
  next => simp

/-- registerOne preserves the nonempty-sets invariant. -/
theorem inv_registerOne (hh : ℕ) (name : String) :
    ∀ reg : Registry, (∀ p ∈ reg, p.2 ≠ []) →
    ∀ p ∈ registerOne hh name reg, p.2 ≠ [] := by
  intro reg
  induction reg with
  | nil =>
      intro _ p hp
      simp [registerOne] at hp
      rw [hp]
      simp
  | cons q rest ih =>
      intro hinv p hp
      unfold registerOne at hp
      split at hp
      next heq =>
        rcases List.mem_cons.mp hp with heq2 | hmem
        · rw [heq2]
          exact setInsert_ne_nil hh q.2
        · exact hinv p (List.mem_cons_of_mem _ hmem)
      next hne =>
        rcases List.mem_cons.mp hp with heq2 | hmem
        · rw [heq2]
          exact hinv q (List.mem_cons_self _ _)
        · exact ih (fun r hr => hinv r (List.mem_cons_of_mem _ hr)) p hmem

/-- register_channel preserves the nonempty-sets invariant. -/
theorem inv_register_channel (hh : ℕ) (names : List String) :
    ∀ reg : Registry, (∀ p ∈ reg, p.2 ≠ []) →
    ∀ p ∈ register_channel hh names reg, p.2 ≠ [] := by
  induction names with
  | nil => intro reg hinv; exact hinv
  | cons nm rest ih =>
      intro reg hinv
      exact ih (registerOne hh nm reg) (inv_registerOne hh nm reg hinv)

/-- unregister_channel preserves the nonempty-sets invariant. -/
theorem inv_unregister (hh : ℕ) :
    ∀ reg : Registry, (∀ p ∈ reg, p.2 ≠ []) →
    ∀ p ∈ unregister_channel hh reg, p.2 ≠ [] := by
  intro reg
  induction reg with
  | nil => intro _ p hp; cases hp
  | cons q rest ih =>
      intro hinv p hp
      unfold unregister_channel at hp
      split at hp
      next hin =>
        split at hp
        next => exact ih (fun r hr => hinv r (List.mem_cons_of_mem _ hr)) p hp
        next hne =>
          rcases List.mem_cons.mp hp with heq2 | hmem
          · rw [heq2]
            intro hemp
            rw [← List.isEmpty_iff] at hemp
            exact hne hemp
          · exact ih (fun r hr => hinv r (List.mem_cons_of_mem _ hr)) p hmem
      next hnotin =>
        rcases List.mem_cons.mp hp with heq2 | hmem
        · rw [heq2]
          exact hinv q (List.mem_cons_self _ _)
        · exact ih (fun r hr => hinv r (List.mem_cons_of_mem _ hr)) p hmem

/-- Any sequence of registry operations preserves the nonempty-sets
invariant. -/
theorem inv_applyOps (ops : List RegOp) :
    ∀ reg : Registry, (∀ p ∈ reg, p.2 ≠ []) →
    ∀ p ∈ applyOps ops reg, p.2 ≠ [] := by
  induction ops with
  | nil => intro reg hinv; exact hinv
  | cons op rest ih =>
      intro reg hinv
      apply ih
      cases op with
      | register names hh => exact inv_register_channel hh names reg hinv
      | unregister hh => exact inv_unregister hh reg hinv

/-- When every cached channel name is a registry key, the unavailable
fanout succeeds and delivers a None update to every handler registered for
a cached name. -/
theorem deliverUnavailable_spec (reg : Registry) :
    ∀ l : List (String × Val),
    (∀ p ∈ l, (assocLookup reg p.1).isSome = true) →
    ∃ ds, deliverUnavailable reg l = Option.some ds ∧
      ∀ nm v hh, (nm, v) ∈ l → hh ∈ (assocLookup reg nm).getD [] →
        (hh, nm, Val.none) ∈ ds := by
  intro l
  induction l with
  | nil => intro _; exact ⟨[], rfl, by simp⟩
  | cons p rest ih =>
      intro hall
      obtain ⟨hs, hhs⟩ :=
        Option.isSome_iff_exists.mp (hall p (List.mem_cons_self _ _))
      obtain ⟨ds, hds, hmem⟩ := ih (fun q hq => hall q (List.mem_cons_of_mem _ hq))
      refine ⟨hs.map (fun h => (h, p.1, Val.none)) ++ ds, ?_, ?_⟩
      · unfold deliverUnavailable
        rw [hhs, hds]
      · intro nm v hh hmem2 hlook
        rcases List.mem_cons.mp hmem2 with heq | hmem3
        · have hnm : nm = p.1 := congrArg Prod.fst heq
          apply List.mem_append_left
          rw [hnm] at hlook
          rw [hhs] at hlook
          simp only [Option.getD_some] at hlook
          rw [hnm]
          exact List.mem_map_of_mem _ hlook
        · exact List.mem_append_right _ (hmem nm v hh hmem3 hlook)

/-- When every group member is among the component's properties, the
sibling-collection loop returns exactly the member names paired with their
current values. -/
theorem lookupSiblings_spec (siblings : List (String × Val)) :
    ∀ members : List String,
    (∀ m ∈ members, (assocLookup siblings m).isSome = true) →
    lookupSiblings siblings members =
      Option.some (members.map (fun m =>
        (propertyApiName m, (assocLookup siblings m).getD Val.none))) := by
  intro members
  induction members with
  | nil => intro _; rfl
  | cons m rest ih =>
      intro hall
      obtain ⟨v, hv⟩ :=
        Option.isSome_iff_exists.mp (hall m (List.mem_cons_self _ _))
      unfold lookupSiblings
      rw [hv, ih (fun x hx => hall x (List.mem_cons_of_mem _ hx))]
      simp [hv]

/-- The Bool returned by _update_config is true exactly when the derived
configuration differs from the previous one. -/
theorem update_config_changed (mdef ldef udef : List (String × Val) → Option ℚ)
    (refs : List (String × Val)) (old : NumberConfig) :
    (update_config mdef ldef udef refs old).2 = true ↔
      (update_config mdef ldef udef refs old).1 ≠ old := by
  have h : (update_config mdef ldef udef refs old).2 =
      decide ((update_config mdef ldef udef refs old).1 ≠ old) := rfl
  rw [h, decide_eq_true_iff]

/-- C1 counterexample: with constant definitions lower=1, upper=100,
multiplier=2, _update_config does not derive step 10 and lower_limit 10 as
claimed: the scaled range 198 split into 200 sub-steps is 0.99, the
minimum-step clamp raises it to 1, and 1 is already a power of ten, so the
step is 1 and the lower limit rounds up to 2. -/
theorem C1_counterexample :
    ¬((update_config (fun _ => Option.some 2) (fun _ => Option.some 1)
          (fun _ => Option.some 100) []
          { multiplier := 2, lower_limit := 1, upper_limit := 100, step := 1 }).1.step
            = 10 ∧
      (update_config (fun _ => Option.some 2) (fun _ => Option.some 1)
          (fun _ => Option.some 100) []
          { multiplier := 2, lower_limit := 1, upper_limit := 100, step := 1 }).1.lower_limit
            = 10) := by
  norm_num [update_config, updateConfigCore, ceilLog10, ceilLog10Aux, max_def]

/-- C1 (amended): with constant definitions lower=1, upper=100,
multiplier=2 and no references, _update_config scales the bounds to 2..200
and derives step = 1 (maximum of 1 and 198/200, rounded up to a power of
ten), lower_limit = 2 and upper_limit = 200, and reports a change. -/
theorem C1_theorem :
    update_config (fun _ => Option.some 2) (fun _ => Option.some 1)
        (fun _ => Option.some 100) []
        { multiplier := 2, lower_limit := 1, upper_limit := 100, step := 1 } =
      ({ multiplier := 2, lower_limit := 2, upper_limit := 200, step := 1 }, true) := by
  norm_num [update_config, updateConfigCore, ceilLog10, ceilLog10Aux, max_def]

/-- C2 counterexample: set_unavailable raises KeyError (modelled as
Option.none) on a state whose channel-data cache holds a name that is not
a registry key, so it neither completes without raising nor clears the
active-subscription list on every state. -/
theorem C2_counterexample :
    set_unavailable
      { id := ("edge0"), registered_channels := [],
        current_channel_data := [(("ess0/Soc"), Val.int 55)],
        active_subscriptions := [("ess0/Soc")], component_config := [] } =
      Option.none := rfl

/-- C2 (amended): whenever every channel-name in current_channel_data is a
key of the registry, set_unavailable completes, delivers a None update to
every registered handler of every cached channel-name, and clears the
subscription updater's active-subscription list while leaving everything
else unchanged. -/
theorem C2_theorem (st : EdgeState)
    (hkeys : ∀ p ∈ st.current_channel_data,
        (assocLookup st.registered_channels p.1).isSome = true) :
    ∃ ds, set_unavailable st =
        Option.some ({ st with active_subscriptions := [] }, ds) ∧
      ∀ nm v hh, (nm, v) ∈ st.current_channel_data →
        hh ∈ (assocLookup st.registered_channels nm).getD [] →
        (hh, nm, Val.none) ∈ ds := by
  obtain ⟨ds, hds, hmem⟩ :=
    deliverUnavailable_spec st.registered_channels st.current_channel_data hkeys
  refine ⟨ds, ?_, hmem⟩
  unfold set_unavailable
  rw [hds]

/-- C2 witness: a concrete state whose single cached channel-name is
registered to handler 5. -/
theorem C2_witness :
    (∀ p ∈ ([(("a/b"), Val.int 1)] : List (String × Val)),
        (assocLookup ([(("a/b"), [5])] : Registry) p.1).isSome = true) ∧
    (∃ ds, set_unavailable
        { id := ("edge0"), registered_channels := [(("a/b"), [5])],
          current_channel_data := [(("a/b"), Val.int 1)],
          active_subscriptions := [("a/b")], component_config := [] } =
        Option.some
          ({ id := ("edge0"), registered_channels := [(("a/b"), [5])],
             current_channel_data := [(("a/b"), Val.int 1)],
             active_subscriptions := [], component_config := [] }, ds) ∧
      ∀ nm v hh,
        (nm, v) ∈ ([(("a/b"), Val.int 1)] : List (String × Val)) →
        hh ∈ (assocLookup ([(("a/b"), [5])] : Registry) nm).getD [] →
        (hh, nm, Val.none) ∈ ds) :=
  ⟨by decide, C2_theorem _ (by decide)⟩

/-- C3: a NumberProperty's register_callback registers the handler under
the unescaped form of every reference-channel key and under its own
component/channel name; unregister_callback removes the handler from every
name; and any sequence of register/unregister operations starting from the
empty registry keeps every present key mapped to a nonempty set. -/
theorem C3_theorem :
    (∀ (slashEsc compName chanName : String) (refs : List (String × Val))
        (handler : ℕ) (reg : Registry) (p : String × Val), p ∈ refs →
        handler ∈ (assocLookup
          (numberRegisterCallback slashEsc compName chanName refs handler reg)
          (pyReplace p.1 slashEsc ("/"))).getD []) ∧
    (∀ (slashEsc compName chanName : String) (refs : List (String × Val))
        (handler : ℕ) (reg : Registry),
        handler ∈ (assocLookup
          (numberRegisterCallback slashEsc compName chanName refs handler reg)
          (compName ++ ("/") ++ chanName)).getD []) ∧
    (∀ (handler : ℕ) (reg : Registry) (nm : String),
        handler ∉ (assocLookup (unregister_channel handler reg) nm).getD []) ∧
    (∀ (ops : List RegOp) (p : String × List ℕ),
        p ∈ applyOps ops [] → p.2 ≠ []) := by
  refine ⟨?_, ?_, ?_, ?_⟩
  · intro se c ch refs hh reg p hp
    exact lookupD_register_channel_mem hh (numberRegisterNames se c ch refs)
      (pyReplace p.1 se ("/"))
      (List.mem_append_left _ (List.mem_map_of_mem _ hp)) reg
  · intro se c ch refs hh reg
    exact lookupD_register_channel_mem hh (numberRegisterNames se c ch refs)
      (c ++ ("/") ++ ch)
      (List.mem_append_right _ (List.mem_singleton_self _)) reg
  · intro hh reg nm
    exact not_mem_unregister hh reg nm
  · intro ops p hp
    exact inv_applyOps ops [] (by simp) p hp

/-- C3 witness: registering handler 7 for a number property with one
escaped reference key makes 7 a member under the unescaped name. -/
theorem C3_witness :
    ((("a+B"), Val.none) ∈ ([(("a+B"), Val.none)] : List (String × Val))) ∧
    7 ∈ (assocLookup
        (numberRegisterCallback ("+") ("evcs0") ("_PropertyX")
          [(("a+B"), Val.none)] 7 [])
        (pyReplace ((("a+B"), Val.none) : String × Val).1 ("+") ("/"))).getD [] :=
  ⟨by decide,
    C3_theorem.1 ("+") ("evcs0") ("_PropertyX") [(("a+B"), Val.none)] 7 []
      ((("a+B"), Val.none)) (by decide)⟩

/-- C4: when the update-group guard is satisfied (no guard, or the guard
value Python-equal to the new value) and every group member is among the
component's properties, update_value sends the written channel's new value
followed by the current values of all group members; when the guard fails
the payload is the written channel alone. -/
theorem C4_theorem (selfName : String) (new_value : Val) (members : List String)
    (conditionValue : Option Val) (siblings : List (String × Val))
    (hfound : ∀ m ∈ members, (assocLookup siblings m).isSome = true) :
    (update_guard conditionValue new_value = true →
      update_value_payload selfName new_value members conditionValue siblings =
        Option.some ((propertyApiName selfName, new_value) ::
          members.map (fun m =>
            (propertyApiName m, (assocLookup siblings m).getD Val.none)))) ∧
    (update_guard conditionValue new_value = false →
      update_value_payload selfName new_value members conditionValue siblings =
        Option.some [(propertyApiName selfName, new_value)]) := by
  constructor
  · intro hg
    simp [update_value_payload, hg, lookupSiblings_spec siblings members hfound]
  · intro hg
    simp [update_value_payload, hg]

/-- C4 witness: writing channel _PropertyA with no guard bundles member
_PropertyB with its current value 7. -/
theorem C4_witness :
    (∀ m ∈ ([("_PropertyB")] : List String),
        (assocLookup ([(("_PropertyB"), Val.int 7)] : List (String × Val))
          m).isSome = true) ∧
    ((update_guard Option.none (Val.int 1) = true →
      update_value_payload ("_PropertyA") (Val.int 1) [("_PropertyB")]
          Option.none [(("_PropertyB"), Val.int 7)] =
        Option.some ((propertyApiName ("_PropertyA"), Val.int 1) ::
          ([("_PropertyB")] : List String).map (fun m =>
            (propertyApiName m,
              (assocLookup ([(("_PropertyB"), Val.int 7)] : List (String × Val))
                m).getD Val.none)))) ∧
    (update_guard Option.none (Val.int 1) = false →
      update_value_payload ("_PropertyA") (Val.int 1) [("_PropertyB")]
          Option.none [(("_PropertyB"), Val.int 7)] =
        Option.some [(propertyApiName ("_PropertyA"), Val.int 1)])) :=
  ⟨by decide, C4_theorem ("_PropertyA") (Val.int 1) [("_PropertyB")]
    Option.none [(("_PropertyB"), Val.int 7)] (by decide)⟩

/-- C5 counterexample: the raw value 5 is not contained in the options
mapping, yet the enum update logs no warning (the warning is reserved for
unknown strings), refuting the claim that every non-option raw value
produces a logged warning. -/
theorem C5_counterexample :
    (enumHandleDataUpdate
      { current_value := Val.none, options := [(("auto"), ("Auto"))],
        hasCallback := true }
      (Val.int 5)).2.2 = false := rfl

/-- C5 (amended): for every raw value that is not an option (for strings:
whose normalised form is not an options key), the enum update leaves
current_option at None and never raises; the warning is logged exactly
when the value is a string. -/
theorem C5_theorem (st : EnumState) (v : Val)
    (hunknown : v.isString = true →
      (assocLookup st.options (pyNormalize v.strVal)).isSome = false) :
    current_option (enumHandleDataUpdate st v).1 = Option.none ∧
    (enumHandleDataUpdate st v).2.2 = v.isString := by
  cases v with
  | none =>
      exact ⟨by simpa [enumHandleDataUpdate] using
          enum_hcv_option_none st Val.none rfl,
        by simp [enumHandleDataUpdate, Val.isString]⟩
  | str s =>
      have h := hunknown rfl
      simp only [Val.strVal] at h
      constructor
      · simpa [enumHandleDataUpdate, h] using
          enum_hcv_option_none st Val.none rfl
      · simp [enumHandleDataUpdate, h, Val.isString]
  | int n =>
      exact ⟨by simpa [enumHandleDataUpdate] using
          enum_hcv_option_none st (Val.int n) rfl,
        by simp [enumHandleDataUpdate, Val.isString]⟩
  | rat q =>
      exact ⟨by simpa [enumHandleDataUpdate] using
          enum_hcv_option_none st (Val.rat q) rfl,
        by simp [enumHandleDataUpdate, Val.isString]⟩
  | bool b =>
      exact ⟨by simpa [enumHandleDataUpdate] using
          enum_hcv_option_none st (Val.bool b) rfl,
        by simp [enumHandleDataUpdate, Val.isString]⟩
  | time a b =>
      exact ⟨by simpa [enumHandleDataUpdate] using
          enum_hcv_option_none st (Val.time a b) rfl,
        by simp [enumHandleDataUpdate, Val.isString]⟩

/-- C5 witness: the unknown string Bogus yields current_option None and a
logged warning on a concrete enum state. -/
theorem C5_witness :
    ((Val.str ("Bogus")).isString = true →
      (assocLookup ([(("auto"), ("Auto"))] : List (String × String))
        (pyNormalize (Val.str ("Bogus")).strVal)).isSome = false) ∧
    (current_option (enumHandleDataUpdate
        { current_value := Val.none, options := [(("auto"), ("Auto"))],
          hasCallback := true }
        (Val.str ("Bogus"))).1 = Option.none ∧
      (enumHandleDataUpdate
        { current_value := Val.none, options := [(("auto"), ("Auto"))],
          hasCallback := true }
        (Val.str ("Bogus"))).2.2 = (Val.str ("Bogus")).isString) :=
  ⟨by decide, C5_theorem _ _ (by decide)⟩

/-- C6: a raw update 12:34 decodes to the time value (12, 34); the
malformed string garbage and in general every unparsable string decode to
None without raising, as does every non-string raw value; and
async_set_value for the time (9, 5) produces an outbound property write
whose value is the string 09:05. -/
theorem C6_theorem :
    ((timeHandleDataUpdate { current_value := Val.none, hasCallback := true }
        (Val.str ("12:34"))).1.current_value = Val.time 12 34) ∧
    ((timeHandleDataUpdate { current_value := Val.none, hasCallback := true }
        (Val.str ("garbage"))).1.current_value = Val.none) ∧
    (∀ (st : ChannelState) (s : String), pyParseTimeStr s = Option.none →
        (timeHandleDataUpdate st (Val.str s)).1.current_value = Val.none) ∧
    (∀ (st : ChannelState) (v : Val), v.isString = false →
        (timeHandleDataUpdate st v).1.current_value = Val.none) ∧
    (timeSetValuePayload ("_PropertySomeTime") 9 5 [] Option.none [] =
      Option.some [(("someTime"), Val.str ("09:05"))]) := by
  refine ⟨by decide, by decide, ?_, ?_, by decide⟩
  · intro st s hs
    simp only [timeHandleDataUpdate, hs, Option.getD_none]
    exact handle_current_value_none st
  · intro st v hv
    cases v with
    | str s => simp [Val.isString] at hv
    | none => exact handle_current_value_none st
    | int n => exact handle_current_value_none st
    | rat q => exact handle_current_value_none st
    | bool b => exact handle_current_value_none st
    | time a b => exact handle_current_value_none st

/-- C6 witness: the out-of-range string 25:00 is unparsable and decodes to
None on a concrete state. -/
theorem C6_witness :
    (pyParseTimeStr ("25:00") = Option.none) ∧
    (timeHandleDataUpdate { current_value := Val.int 3, hasCallback := true }
        (Val.str ("25:00"))).1.current_value = Val.none :=
  ⟨by decide, C6_theorem.2.2.1 _ _ (by decide)⟩

/-- C7: unique_id is exactly hostname, edge id, component name and channel
name joined by slashes, and repeated calls return the identical string. -/
theorem C7_theorem (hostname edgeId componentName channelName : String) :
    (unique_id hostname edgeId componentName channelName =
      String.intercalate ("/")
        [hostname, edgeId, componentName, channelName]) ∧
    (unique_id hostname edgeId componentName channelName =
      unique_id hostname edgeId componentName channelName) :=
  ⟨rfl, rfl⟩

/-- C8: an edgeRpc notification whose edgeId differs from the owned edge's
id leaves the edge state unchanged and causes no handler delivery and no
edge-method effect. -/
theorem C8_theorem (st : EdgeState) (edgeId : String) (payload : RpcPayload)
    (hmismatch : edgeId ≠ st.id) :
    backendEdgeRpc st edgeId payload = (st, []) := by
  unfold backendEdgeRpc
  rw [if_pos hmismatch]

/-- C8 witness: dispatching a currentData payload for edge1 against the
edge edge0 changes nothing. -/
theorem C8_witness :
    ((("edge1") : String) ≠ (("edge0") : String)) ∧
    backendEdgeRpc
        { id := ("edge0"), registered_channels := [(("a/b"), [4])],
          current_channel_data := [], active_subscriptions := [],
          component_config := [] }
        ("edge1") (RpcPayload.currentData [(("a/b"), Val.int 2)]) =
      ({ id := ("edge0"), registered_channels := [(("a/b"), [4])],
         current_channel_data := [], active_subscriptions := [],
         component_config := [] }, []) :=
  ⟨by decide, C8_theorem _ _ _ (by decide)⟩

/-- C9: with a callback registered, handle_current_value invokes it
exactly when the incoming value differs (Python inequality) from the
cached one, and applying the same value twice leaves the state of the
first application unchanged and fires no second notification. -/
theorem C9_theorem (st : ChannelState) (v : Val) (hcb : st.hasCallback = true) :
    ((handle_current_value st v).2 = true ↔ pyEq v st.current_value = false) ∧
    handle_current_value (handle_current_value st v).1 v =
      ((handle_current_value st v).1, false) := by
  cases hp : pyEq v st.current_value with
  | true =>
      have e1 : handle_current_value st v = (st, false) := by
        simp [handle_current_value, hp]
      rw [e1]
      exact ⟨by simp [hp], e1⟩
  | false =>
      have e1 : handle_current_value st v =
          ({ st with current_value := v }, st.hasCallback) := by
        simp [handle_current_value, hp]
      rw [e1]
      constructor
      · simp [hcb, hp]
      · simp [handle_current_value, pyEq_refl]

/-- C9 witness: a fresh channel with a callback adopts the value 5 with a
notification, and a repeated identical update is a silent no-op. -/
theorem C9_witness :
    (({ current_value := Val.none, hasCallback := true } :
        ChannelState).hasCallback = true) ∧
    (((handle_current_value
          { current_value := Val.none, hasCallback := true } (Val.int 5)).2 = true ↔
        pyEq (Val.int 5)
          ({ current_value := Val.none, hasCallback := true } :
            ChannelState).current_value = false) ∧
      handle_current_value
          (handle_current_value
            { current_value := Val.none, hasCallback := true } (Val.int 5)).1
          (Val.int 5) =
        ((handle_current_value
            { current_value := Val.none, hasCallback := true } (Val.int 5)).1,
          false)) :=
  ⟨rfl, C9_theorem _ _ rfl⟩

/-- C10: a data update arriving under a channel name contained in a
NumberProperty's reference channels never changes the cached current value
or the callback registration, and the callback fires only when the derived
configuration (multiplier, limits, step) actually changed. -/
theorem C10_theorem (mdef ldef udef : List (String × Val) → Option ℚ)
    (slashEsc : String) (st : NumberState) (channel_name : String) (value : Val)
    (href : (assocLookup st.reference_channels
        (pyReplace channel_name ("/") slashEsc)).isSome = true) :
    ((numberHandleDataUpdate mdef ldef udef slashEsc st channel_name
        value).1.current_value = st.current_value) ∧
    ((numberHandleDataUpdate mdef ldef udef slashEsc st channel_name
        value).2 = true →
      numberConfigOf (numberHandleDataUpdate mdef ldef udef slashEsc st
          channel_name value).1 ≠ numberConfigOf st) := by
  obtain ⟨oldv, hold⟩ := Option.isSome_iff_exists.mp href
  simp only [numberHandleDataUpdate, hold]
  cases hp : pyEq oldv value with
  | true =>
      rw [if_pos rfl]
      exact ⟨rfl, by simp⟩
  | false =>
      rw [if_neg (by simp)]
      cases hres : (update_config mdef ldef udef
          (assocSet st.reference_channels
            (pyReplace channel_name ("/") slashEsc) value)
          (numberConfigOf st)).2 with
      | true =>
          rw [if_pos rfl]
          exact ⟨rfl, fun _ =>
            (update_config_changed mdef ldef udef _ (numberConfigOf st)).mp hres⟩
      | false =>
          rw [if_neg (by simp)]
          exact ⟨rfl, by simp⟩

/-- C10 witness: an update for the registered reference channel
evcs0/Phases of a concrete number property leaves the cached current value
untouched. -/
theorem C10_witness :
    ((assocLookup ([(("evcs0+Phases"), Val.none)] : List (String × Val))
        (pyReplace ("evcs0/Phases") ("/") ("+"))).isSome = true) ∧
    (((numberHandleDataUpdate (fun _ => Option.some 1) (fun _ => Option.some 0)
          (fun _ => Option.some 100) ("+")
          { current_value := Val.int 500, hasCallback := true, multiplier := 1,
            lower_limit := 0, upper_limit := 100, step := 1,
            reference_channels := [(("evcs0+Phases"), Val.none)] }
          ("evcs0/Phases") (Val.int 3)).1.current_value = Val.int 500) ∧
      ((numberHandleDataUpdate (fun _ => Option.some 1) (fun _ => Option.some 0)
          (fun _ => Option.some 100) ("+")
          { current_value := Val.int 500, hasCallback := true, multiplier := 1,
            lower_limit := 0, upper_limit := 100, step := 1,
            reference_channels := [(("evcs0+Phases"), Val.none)] }
          ("evcs0/Phases") (Val.int 3)).2 = true →
        numberConfigOf (numberHandleDataUpdate (fun _ => Option.some 1)
            (fun _ => Option.some 0) (fun _ => Option.some 100) ("+")
            { current_value := Val.int 500, hasCallback := true, multiplier := 1,
              lower_limit := 0, upper_limit := 100, step := 1,
              reference_channels := [(("evcs0+Phases"), Val.none)] }
            ("evcs0/Phases") (Val.int 3)).1 ≠
          numberConfigOf
            { current_value := Val.int 500, hasCallback := true, multiplier := 1,
              lower_limit := 0, upper_limit := 100, step := 1,
              reference_channels := [(("evcs0+Phases"), Val.none)] })) :=
  ⟨by decide, C10_theorem _ _ _ _ _ _ _ (by decide)⟩
